import Mathlib

/-!
Verification of the Secret Toaster legacy rules engine
(`packages/domain/src`: `parity.ts`, `order-validation.ts`,
`battle-resolver.ts`, `round-executor.ts`).

Shallow embedding conventions:
* TypeScript `number` values are embedded as `ℤ` where the code only ever
  treats them as integers (hex indices, order numbers, rolls, scores,
  alliance member counts, round counters) and as `ℚ` where fractional
  values are observable (troop counts fed to `Math.floor`, RNG outputs
  in `[0,1)`).
* `Record<K, V>` objects are embedded as association lists with `lookup`.
* The injected impure callbacks `rollDie()` / `random()` are embedded as
  streams `ℕ → ℤ` / `ℕ → ℚ` consumed linearly at successive indices.
* The round-executor while-loop can genuinely diverge for adversarial
  RNG streams (the selected player may forever have an empty queue), so
  it is embedded with explicit fuel and returns `Option`; `none` models
  a run that has not finished within the fuel budget.
-/

/-! ## Board topology (`parity.ts`) -/

def LEGACY_BOARD_WIDTH : ℕ := 10

def LEGACY_BOARD_HEIGHT : ℕ := 11

/-- Embeds `getLegacyHexNeighbors` from `parity.ts`.  Coordinates are
computed over `ℤ` so that the `x - 1` / `y - 1` offsets of the source are
represented exactly; out-of-bounds offsets become `none` exactly as the
source maps them to `null`. -/
def getLegacyHexNeighbors (index : ℕ) : List (Option ℕ) :=
  let x : ℤ := (index % LEGACY_BOARD_WIDTH : ℕ)
  let y : ℤ := (index / LEGACY_BOARD_WIDTH : ℕ)
  let points : List (ℤ × ℤ) :=
    if y % 2 ≠ 0 then
      [(x, y - 1), (x + 1, y), (x, y + 1), (x - 1, y + 1), (x - 1, y), (x - 1, y - 1)]
    else
      [(x + 1, y - 1), (x + 1, y), (x + 1, y + 1), (x, y + 1), (x - 1, y), (x, y - 1)]
  points.map fun p =>
    if p.1 < 0 ∨ (LEGACY_BOARD_WIDTH : ℤ) ≤ p.1 ∨ p.2 < 0 ∨ (LEGACY_BOARD_HEIGHT : ℤ) ≤ p.2 then
      none
    else
      some (p.1 + (LEGACY_BOARD_WIDTH : ℤ) * p.2).toNat

/-! ## Order model (`order-validation.ts`) -/

def LEGACY_MAX_ORDERS_PER_PLAYER : ℤ := 3

def LEGACY_TROOPS_TO_PROMOTE_KNIGHT : ℚ := 100

inductive LegacyOrderType where
  | move
  | fortify
  | promote
  | attack
deriving DecidableEq

/-- Embeds `LegacyOrderInput`; the source fields `from` / `to` are named
`fromHex` / `toHex` because `from` is a Lean keyword. -/
structure LegacyOrderInput where
  orderNumber : ℤ
  type : LegacyOrderType
  knightName : String
  fromHex : ℤ
  toHex : ℤ
  ownerNickname : String
  troops : ℚ
deriving DecidableEq

structure ValidationHexState where
  index : ℤ
  neighbors : List (Option ℤ)
  ownerNickname : Option String
  troopsByPlayer : List (String × ℚ)
deriving DecidableEq

/-- Embeds `ValidationKnightState`; the optional TypeScript fields `alive`
and `projectedPositions` become `Option`s (`none` = field absent). -/
structure ValidationKnightState where
  name : String
  ownerNickname : String
  location : ℤ
  alive : Option Bool
  projectedPositions : Option (ℤ × ℤ × ℤ)
deriving DecidableEq

structure ValidationPlayerState where
  nickname : String
  allianceName : String
  knights : List ValidationKnightState
deriving DecidableEq

structure OrderValidationState where
  hexesByIndex : List (ℤ × ValidationHexState)
  playersByNickname : List (String × ValidationPlayerState)
deriving DecidableEq

inductive OrderValidationErrorCode where
  | INVALID_ORDER_NUMBER
  | PLAYER_NOT_FOUND
  | KNIGHT_NOT_FOUND
  | KNIGHT_NOT_OWNED
  | KNIGHT_DEAD
  | HEX_NOT_FOUND
  | FROM_MISMATCH
  | NOT_NEIGHBOR
  | INVALID_TROOP_COUNT
  | INSUFFICIENT_TROOPS
  | FORTIFY_DESTINATION_INVALID
  | PROMOTE_DESTINATION_INVALID
  | PROMOTE_INSUFFICIENT_TROOPS
  | ATTACK_TARGET_NOT_ENEMY
deriving DecidableEq

inductive OrderValidationResult where
  | ok (normalized : LegacyOrderInput)
  | fail (code : OrderValidationErrorCode) (message : String)
deriving DecidableEq

/-- Embeds `projectedPositionForOrder`.  The source indexes the
`projectedPositions` triple with `orderNumber - 2`, falling back to
`knight.location` when the slot is absent. -/
def projectedPositionForOrder (knight : ValidationKnightState) (orderNumber : ℤ) : ℤ :=
  if orderNumber ≤ 1 then knight.location
  else
    match knight.projectedPositions with
    | none => knight.location
    | some pp =>
      if orderNumber = 2 then pp.1
      else if orderNumber = 3 then pp.2.1
      else if orderNumber = 4 then pp.2.2
      else knight.location

def isNeighbor (fromHexState : ValidationHexState) (toIndex : ℤ) : Bool :=
  fromHexState.neighbors.contains (some toIndex)

/-- Embeds `troopsOnHex`: `hex.troopsByPlayer[ownerNickname] ?? 0`. -/
def troopsOnHex (hex : ValidationHexState) (ownerNickname : String) : ℚ :=
  match hex.troopsByPlayer.lookup ownerNickname with
  | some t => t
  | none => 0

/-- Embeds `validateLegacyOrder` from `order-validation.ts`, check for
check in source order. -/
def validateLegacyOrder (input : LegacyOrderInput) (state : OrderValidationState) :
    OrderValidationResult :=
  if input.orderNumber < 1 ∨ LEGACY_MAX_ORDERS_PER_PLAYER < input.orderNumber then
    .fail .INVALID_ORDER_NUMBER "Order number must be between 1 and 3"
  else
    match state.playersByNickname.lookup input.ownerNickname with
    | none => .fail .PLAYER_NOT_FOUND "Order owner is not in game state"
    | some player =>
      match player.knights.find? (fun k => k.name == input.knightName) with
      | none => .fail .KNIGHT_NOT_FOUND "Knight does not exist for player"
      | some knight =>
        if knight.ownerNickname ≠ input.ownerNickname then
          .fail .KNIGHT_NOT_OWNED "Knight owner does not match order owner"
        else if knight.alive = some false then
          .fail .KNIGHT_DEAD "Knight is not alive"
        else
          match state.hexesByIndex.lookup input.fromHex,
              state.hexesByIndex.lookup input.toHex with
          | some fromHexState, some toHexState =>
            if projectedPositionForOrder knight input.orderNumber ≠ input.fromHex then
              .fail .FROM_MISMATCH "Order from hex does not match projected knight location"
            else if input.type = .fortify then
              if input.toHex ≠ input.fromHex then
                .fail .FORTIFY_DESTINATION_INVALID "Fortify must target the same hex as source"
              else .ok input
            else if input.type = .promote then
              if input.toHex ≠ input.fromHex then
                .fail .PROMOTE_DESTINATION_INVALID "Promote must target the same hex as source"
              else if troopsOnHex fromHexState input.ownerNickname < LEGACY_TROOPS_TO_PROMOTE_KNIGHT then
                .fail .PROMOTE_INSUFFICIENT_TROOPS "Not enough troops to promote a knight"
              else .ok input
            else if ¬ isNeighbor fromHexState input.toHex then
              .fail .NOT_NEIGHBOR "Move or attack destination must be a neighboring hex"
            else if input.troops ≤ 0 then
              .fail .INVALID_TROOP_COUNT "Move or attack troop count must be greater than zero"
            else if troopsOnHex fromHexState input.ownerNickname < input.troops then
              .fail .INSUFFICIENT_TROOPS "Move or attack troop count exceeds available troops"
            else if input.type = .attack ∧
                (toHexState.ownerNickname = none ∨
                  toHexState.ownerNickname = some input.ownerNickname) then
              .fail .ATTACK_TARGET_NOT_ENEMY "Attack order requires an enemy-owned destination"
            else .ok input
          | _, _ => .fail .HEX_NOT_FOUND "Order references unknown hex index"

def resultCode : OrderValidationResult → Option OrderValidationErrorCode
  | .ok _ => none
  | .fail code _ => some code

/-- Written from the spec's validator table (§4.3): the twelve checks in
the listed order with their applicability conditions, returning the error
code of the first failing check, or `none` when every applicable check
passes.  This definition follows the spec's words and is compared with
the source-derived `validateLegacyOrder`. -/
def specValidatorFirstFailure (input : LegacyOrderInput) (state : OrderValidationState) :
    Option OrderValidationErrorCode :=
  if ¬ (1 ≤ input.orderNumber ∧ input.orderNumber ≤ 3) then some .INVALID_ORDER_NUMBER
  else
    match state.playersByNickname.lookup input.ownerNickname with
    | none => some .PLAYER_NOT_FOUND
    | some player =>
      match player.knights.find? (fun k => k.name == input.knightName) with
      | none => some .KNIGHT_NOT_FOUND
      | some knight =>
        if knight.ownerNickname ≠ input.ownerNickname then some .KNIGHT_NOT_OWNED
        else if knight.alive = some false then some .KNIGHT_DEAD
        else
          match state.hexesByIndex.lookup input.fromHex,
              state.hexesByIndex.lookup input.toHex with
          | some fromHexState, some toHexState =>
            if projectedPositionForOrder knight input.orderNumber ≠ input.fromHex then
              some .FROM_MISMATCH
            else if (input.type = .fortify ∨ input.type = .promote) ∧
                input.toHex ≠ input.fromHex then
              some (if input.type = .fortify then .FORTIFY_DESTINATION_INVALID
                else .PROMOTE_DESTINATION_INVALID)
            else if input.type = .promote ∧
                troopsOnHex fromHexState input.ownerNickname < LEGACY_TROOPS_TO_PROMOTE_KNIGHT then
              some .PROMOTE_INSUFFICIENT_TROOPS
            else if (input.type = .move ∨ input.type = .attack) ∧
                ¬ isNeighbor fromHexState input.toHex then
              some .NOT_NEIGHBOR
            else if (input.type = .move ∨ input.type = .attack) ∧ input.troops ≤ 0 then
              some .INVALID_TROOP_COUNT
            else if (input.type = .move ∨ input.type = .attack) ∧
                troopsOnHex fromHexState input.ownerNickname < input.troops then
              some .INSUFFICIENT_TROOPS
            else if input.type = .attack ∧
                (toHexState.ownerNickname = none ∨
                  toHexState.ownerNickname = some input.ownerNickname) then
              some .ATTACK_TARGET_NOT_ENEMY
            else none
          | _, _ => some .HEX_NOT_FOUND

/-- The spec table's checks 1-6 all pass, with the resolved `from` / `to`
hex records: order number in range, owner present, knight found and
owned, knight alive, both hexes known, `from` matches the projected
position.  Used to state the priority clauses of the validator claim. -/
def passesChecks1to6 (input : LegacyOrderInput) (state : OrderValidationState)
    (fromHexState toHexState : ValidationHexState) : Prop :=
  (1 ≤ input.orderNumber ∧ input.orderNumber ≤ 3) ∧
  ∃ player knight,
    state.playersByNickname.lookup input.ownerNickname = some player ∧
    player.knights.find? (fun k => k.name == input.knightName) = some knight ∧
    knight.ownerNickname = input.ownerNickname ∧
    knight.alive ≠ some false ∧
    state.hexesByIndex.lookup input.fromHex = some fromHexState ∧
    state.hexesByIndex.lookup input.toHex = some toHexState ∧
    projectedPositionForOrder knight input.orderNumber = input.fromHex

/-! ## Battle resolver (`battle-resolver.ts`) -/

inductive BattleSide where
  | attacker
  | defender
deriving DecidableEq

structure LegacyBattleInput where
  attackerNickname : String
  defenderNickname : String
  attackerTroops : ℚ
  defenderTroops : ℚ
  attackerAllianceMembers : ℤ
  defenderAllianceMembers : ℤ
  attackerKnightsOnHex : List String
  defenderKnightsOnHex : List String
deriving DecidableEq

structure LegacyBattleRound where
  attackerRoll : ℤ
  defenderRoll : ℤ
  attackerScore : ℤ
  defenderScore : ℤ
  loser : BattleSide
  attackerTroopsAfter : ℤ
  defenderTroopsAfter : ℤ
deriving DecidableEq

structure LegacyBattleResult where
  winnerNickname : String
  loserNickname : String
  attackerTroopsRemaining : ℤ
  defenderTroopsRemaining : ℤ
  attackerBonus : ℤ
  defenderBonus : ℤ
  rounds : List LegacyBattleRound
  eliminatedKnightNames : List String
  newOwnerNickname : String
deriving DecidableEq

/-- Embeds `calculateLegacyBattleBonus` from `parity.ts` (identity on the
alliance member count). -/
def calculateLegacyBattleBonus (allianceMemberCount : ℤ) : ℤ :=
  allianceMemberCount

/-- Embeds `clampTroops`: `Math.max(0, Math.floor(value))`. -/
def clampTroops (value : ℚ) : ℤ :=
  max 0 ⌊value⌋

/-- The while-loop of `resolveLegacyBattle`: `k` is the position reached
in the die-roll stream, `a` / `d` the attacker / defender troop counts
(naturals: the source clamps them to non-negative integers before the
loop).  Returns the accumulated `LegacyBattleRound` trace together with
the final troop counts. -/
def battleLoop (rollDie : ℕ → ℤ) (attackerBonus defenderBonus : ℤ) (k a d : ℕ) :
    List LegacyBattleRound × ℕ × ℕ :=
  if h : 0 < a ∧ 0 < d then
    if rollDie (k + 1) + defenderBonus ≥ rollDie k + attackerBonus then
      (⟨rollDie k, rollDie (k + 1), rollDie k + attackerBonus, rollDie (k + 1) + defenderBonus,
        .attacker, ((a - 1 : ℕ) : ℤ), (d : ℤ)⟩ ::
          (battleLoop rollDie attackerBonus defenderBonus (k + 2) (a - 1) d).1,
        (battleLoop rollDie attackerBonus defenderBonus (k + 2) (a - 1) d).2)
    else
      (⟨rollDie k, rollDie (k + 1), rollDie k + attackerBonus, rollDie (k + 1) + defenderBonus,
        .defender, (a : ℤ), ((d - 1 : ℕ) : ℤ)⟩ ::
          (battleLoop rollDie attackerBonus defenderBonus (k + 2) a (d - 1)).1,
        (battleLoop rollDie attackerBonus defenderBonus (k + 2) a (d - 1)).2)
  else ([], a, d)
termination_by a + d
decreasing_by
  all_goals omega

/-- Embeds `resolveLegacyBattle` from `battle-resolver.ts`, with the
injected `rollDie` callback embedded as a stream consumed linearly. -/
def resolveLegacyBattle (input : LegacyBattleInput) (rollDie : ℕ → ℤ) : LegacyBattleResult :=
  let attackerBonus := calculateLegacyBattleBonus input.attackerAllianceMembers
  let defenderBonus := calculateLegacyBattleBonus input.defenderAllianceMembers
  let res := battleLoop rollDie attackerBonus defenderBonus 0
    (clampTroops input.attackerTroops).toNat (clampTroops input.defenderTroops).toNat
  let attackerWon := 0 < res.2.1
  { winnerNickname := if attackerWon then input.attackerNickname else input.defenderNickname
    loserNickname := if attackerWon then input.defenderNickname else input.attackerNickname
    attackerTroopsRemaining := (res.2.1 : ℤ)
    defenderTroopsRemaining := (res.2.2 : ℤ)
    attackerBonus := attackerBonus
    defenderBonus := defenderBonus
    rounds := res.1
    eliminatedKnightNames := if attackerWon then input.defenderKnightsOnHex
      else input.attackerKnightsOnHex
    newOwnerNickname := if attackerWon then input.attackerNickname else input.defenderNickname }

/-- The round-by-round contract of the battle trace, stated from the
claim: starting from troop counts `a` / `d`, each recorded round scores
both sides as die roll plus alliance bonus, the attacker loses exactly
one troop iff the defender's score is at least the attacker's (ties to
defender), the defender loses exactly one troop otherwise, and exactly
one troop total is lost per round. -/
def battleRoundsChain (attackerBonus defenderBonus : ℤ) : ℤ → ℤ → List LegacyBattleRound → Prop
  | _, _, [] => True
  | a, d, r :: rest =>
    r.attackerScore = r.attackerRoll + attackerBonus ∧
    r.defenderScore = r.defenderRoll + defenderBonus ∧
    (if r.defenderScore ≥ r.attackerScore then
      r.loser = .attacker ∧ r.attackerTroopsAfter = a - 1 ∧ r.defenderTroopsAfter = d
    else
      r.loser = .defender ∧ r.attackerTroopsAfter = a ∧ r.defenderTroopsAfter = d - 1) ∧
    r.attackerTroopsAfter + r.defenderTroopsAfter + 1 = a + d ∧
    battleRoundsChain attackerBonus defenderBonus r.attackerTroopsAfter r.defenderTroopsAfter rest

/-- The combined troop total after each successive round, starting from
total `t`, decreases by exactly one per round. -/
def roundsTotalsDecrease (t : ℤ) : List LegacyBattleRound → Prop
  | [] => True
  | r :: rest =>
    r.attackerTroopsAfter + r.defenderTroopsAfter + 1 = t ∧
    roundsTotalsDecrease (r.attackerTroopsAfter + r.defenderTroopsAfter) rest

/-! ## Round executor (`round-executor.ts`) -/

structure RoundPlayerState where
  nickname : String
  ready : Bool
  orders : List LegacyOrderInput
deriving DecidableEq

structure RoundExecutorInput where
  round : ℤ
  players : List RoundPlayerState
deriving DecidableEq

inductive RoundEvent where
  | orderIssued (round : ℤ) (player : String) (order : LegacyOrderInput)
  | roundAdvanced (fromRound toRound : ℤ)
deriving DecidableEq

structure RoundExecutorResult where
  executed : Bool
  round : ℤ
  players : List RoundPlayerState
  events : List RoundEvent
deriving DecidableEq

/-- Embeds `Math.floor(random() * players.length)` together with the
`players[index]` bounds behaviour: an index outside `[0, playerCount)`
yields `undefined` in the source, embedded as `none`. -/
def drawIndex (playerCount : ℕ) (q : ℚ) : Option ℕ :=
  let i : ℤ := ⌊q * (playerCount : ℚ)⌋
  if 0 ≤ i ∧ i < (playerCount : ℤ) then some i.toNat else none

/-- Embeds `players[index].orders.shift()`: removes the first queued
order of the player at the given position.  Returns `none` when the
position is out of range or that player's queue is empty (the source's
`continue` cases). -/
def popOrderAt : List RoundPlayerState → ℕ → Option (String × LegacyOrderInput × List RoundPlayerState)
  | [], _ => none
  | p :: ps, 0 =>
    match p.orders with
    | [] => none
    | o :: rest => some (p.nickname, o, { p with orders := rest } :: ps)
  | p :: ps, n + 1 =>
    match popOrderAt ps n with
    | none => none
    | some (nick, o, ps') => some (nick, o, p :: ps')

/-- The `while (hasPendingOrders())` loop of `runLegacyRoundExecutor`,
with explicit fuel: each source-loop iteration consumes one unit; `none`
models a run that did not finish within the budget (for adversarial RNG
streams the source loop genuinely never terminates).  Returns the final
player list and the issued `(nickname, order)` pairs in issue order. -/
def issueLoop (rng : ℕ → ℚ) :
    ℕ → ℕ → List RoundPlayerState → Option (List RoundPlayerState × List (String × LegacyOrderInput))
  | 0, _, _ => none
  | fuel + 1, k, players =>
    if players.all fun p => p.orders.isEmpty then some (players, [])
    else
      match drawIndex players.length (rng k) with
      | none => issueLoop rng fuel (k + 1) players
      | some i =>
        match popOrderAt players i with
        | none => issueLoop rng fuel (k + 1) players
        | some (nick, o, players') =>
          match issueLoop rng fuel (k + 1) players' with
          | none => none
          | some (finalPlayers, issued) => some (finalPlayers, (nick, o) :: issued)

/-- Embeds `runLegacyRoundExecutor` from `round-executor.ts`.  The
injected `random` callback is embedded as the stream `rng`; `fuel`
bounds the number of scheduling-loop iterations (see `issueLoop`). -/
def runLegacyRoundExecutor (fuel : ℕ) (input : RoundExecutorInput) (rng : ℕ → ℚ) :
    Option RoundExecutorResult :=
  if input.players.all fun p => p.ready then
    match issueLoop rng fuel 0 input.players with
    | none => none
    | some (players, issued) =>
      some
        { executed := true
          round := input.round + 1
          players := players.map fun p => { p with ready := false }
          events := (issued.map fun pr => RoundEvent.orderIssued input.round pr.1 pr.2) ++
            [RoundEvent.roundAdvanced input.round (input.round + 1)] }
  else
    some { executed := false, round := input.round, players := input.players, events := [] }

/-! ## Concrete fixtures (mirroring `packages/domain/test`) -/

def fixtureAliceKnight : ValidationKnightState :=
  { name := "Sir Alice 0", ownerNickname := "Alice", location := 23
    alive := some true, projectedPositions := some (23, 24, 24) }

/-- The `createState()` fixture of `order-validation.spec.ts`. -/
def fixtureValidationState : OrderValidationState :=
  { hexesByIndex :=
      [(23, { index := 23, neighbors := [some 14, some 24, some 34, some 33, some 22, some 13]
              ownerNickname := some "Alice", troopsByPlayer := [("Alice", 150)] }),
       (24, { index := 24, neighbors := [some 15, some 25, some 35, some 34, some 23, some 14]
              ownerNickname := some "Bob", troopsByPlayer := [("Bob", 100)] }),
       (33, { index := 33, neighbors := [some 23, some 34, some 43, some 42, some 32, some 22]
              ownerNickname := none, troopsByPlayer := [] }),
       (55, { index := 55, neighbors := [some 45, some 56, some 65, some 64, some 54, some 44]
              ownerNickname := some "Bob", troopsByPlayer := [("Bob", 50)] })]
    playersByNickname :=
      [("Alice", { nickname := "Alice", allianceName := "A", knights := [fixtureAliceKnight] }),
       ("Bob", { nickname := "Bob", allianceName := "B", knights := [] })] }

/-- The order of the "rejects invalid order number" test, `orderNumber = 4`. -/
def fixtureBadNumberOrder : LegacyOrderInput :=
  { orderNumber := 4, type := .move, knightName := "Sir Alice 0"
    fromHex := 23, toHex := 24, ownerNickname := "Alice", troops := 10 }

/-- The `order(owner, n)` helper of `round-executor.spec.ts`, with the
nicknames used by the scenarios. -/
def fixtureAliceOrder1 : LegacyOrderInput :=
  { orderNumber := 1, type := .move, knightName := "Sir Alice 0"
    fromHex := 23, toHex := 24, ownerNickname := "Alice", troops := 10 }

def fixtureAliceOrder2 : LegacyOrderInput :=
  { orderNumber := 2, type := .move, knightName := "Sir Alice 0"
    fromHex := 23, toHex := 24, ownerNickname := "Alice", troops := 10 }

def fixtureBobOrder1 : LegacyOrderInput :=
  { orderNumber := 1, type := .move, knightName := "Sir Bob 0"
    fromHex := 23, toHex := 24, ownerNickname := "Bob", troops := 10 }

/-- Scenario S1: round 3, Alice ready with one order, Bob not ready. -/
def s1Input : RoundExecutorInput :=
  { round := 3
    players :=
      [{ nickname := "Alice", ready := true, orders := [fixtureAliceOrder1] },
       { nickname := "Bob", ready := false, orders := [fixtureBobOrder1] }] }

/-- Scenario S2: round 7, Alice ready with orders 1 and 2, Bob ready with
order 1. -/
def s2Input : RoundExecutorInput :=
  { round := 7
    players :=
      [{ nickname := "Alice", ready := true, orders := [fixtureAliceOrder1, fixtureAliceOrder2] },
       { nickname := "Bob", ready := true, orders := [fixtureBobOrder1] }] }

/-- The scripted random source of scenario S2: first four outputs in
`[0,1)` are 0.0, 0.8, 0.8, 0.1 (later draws default to 0, mirroring the
test's `randomValues[randomIndex] ?? 0`). -/
def s2Rng : ℕ → ℚ := fun k => [(0 : ℚ), 8/10, 8/10, 1/10].getD k 0

def zeroRng : ℕ → ℚ := fun _ => 0

/-- The tie-to-defender battle fixture (scenario S3): 1 vs 1 troops,
alliance sizes 1/1, scripted rolls 3, 3 (later rolls default to 1,
mirroring the test's `sequenceRolls`). -/
def s3BattleInput : LegacyBattleInput :=
  { attackerNickname := "Alice", defenderNickname := "Bob"
    attackerTroops := 1, defenderTroops := 1
    attackerAllianceMembers := 1, defenderAllianceMembers := 1
    attackerKnightsOnHex := ["Sir Alice 0"], defenderKnightsOnHex := ["Sir Bob 0"] }

def s3Rolls : ℕ → ℤ := fun k => [(3 : ℤ), 3].getD k 1

/-! ## Battle resolver lemmas -/

theorem clampTroops_nonneg (v : ℚ) : 0 ≤ clampTroops v :=
  le_max_left 0 ⌊v⌋

theorem clampTroops_toNat_cast (v : ℚ) : ((clampTroops v).toNat : ℤ) = clampTroops v :=
  Int.toNat_of_nonneg (clampTroops_nonneg v)

theorem battleLoop_chain_aux (rollDie : ℕ → ℤ) (ab db : ℤ) :
    ∀ n k a d : ℕ, a + d ≤ n →
      battleRoundsChain ab db (a : ℤ) (d : ℤ) (battleLoop rollDie ab db k a d).1 := by
  intro n
  induction n with
  | zero =>
    intro k a d hn
    rw [battleLoop, dif_neg (by omega)]
    exact trivial
  | succ n ih =>
    intro k a d hn
    by_cases had : 0 < a ∧ 0 < d
    · rw [battleLoop, dif_pos had]
      by_cases hs : rollDie (k + 1) + db ≥ rollDie k + ab
      · rw [if_pos hs]
        refine ⟨rfl, rfl, ?_, ?_, ?_⟩
        · rw [if_pos hs]
          refine ⟨rfl, ?_, rfl⟩
          show ((a - 1 : ℕ) : ℤ) = (a : ℤ) - 1
          omega
        · show ((a - 1 : ℕ) : ℤ) + (d : ℤ) + 1 = (a : ℤ) + (d : ℤ)
          omega
        · exact ih (k + 2) (a - 1) d (by omega)
      · rw [if_neg hs]
        refine ⟨rfl, rfl, ?_, ?_, ?_⟩
        · rw [if_neg hs]
          refine ⟨rfl, rfl, ?_⟩
          show ((d - 1 : ℕ) : ℤ) = (d : ℤ) - 1
          omega
        · show (a : ℤ) + ((d - 1 : ℕ) : ℤ) + 1 = (a : ℤ) + (d : ℤ)
          omega
        · exact ih (k + 2) a (d - 1) (by omega)
    · rw [battleLoop, dif_neg had]
      exact trivial

theorem battleLoop_final (rollDie : ℕ → ℤ) (ab db : ℤ) :
    ∀ n k a d : ℕ, a + d ≤ n →
      (battleLoop rollDie ab db k a d).2.1 = 0 ∨ (battleLoop rollDie ab db k a d).2.2 = 0 := by
  intro n
  induction n with
  | zero =>
    intro k a d hn
    rw [battleLoop, dif_neg (by omega)]
    exact (show a = 0 ∨ d = 0 by omega)
  | succ n ih =>
    intro k a d hn
    by_cases had : 0 < a ∧ 0 < d
    · rw [battleLoop, dif_pos had]
      by_cases hs : rollDie (k + 1) + db ≥ rollDie k + ab
      · rw [if_pos hs]
        exact ih (k + 2) (a - 1) d (by omega)
      · rw [if_neg hs]
        exact ih (k + 2) a (d - 1) (by omega)
    · rw [battleLoop, dif_neg had]
      exact (show a = 0 ∨ d = 0 by omega)

theorem battleLoop_length (rollDie : ℕ → ℤ) (ab db : ℤ) :
    ∀ n k a d : ℕ, a + d ≤ n →
      (battleLoop rollDie ab db k a d).1.length +
        (battleLoop rollDie ab db k a d).2.1 + (battleLoop rollDie ab db k a d).2.2 = a + d := by
  intro n
  induction n with
  | zero =>
    intro k a d hn
    rw [battleLoop, dif_neg (by omega)]
    exact (show 0 + a + d = a + d by omega)
  | succ n ih =>
    intro k a d hn
    by_cases had : 0 < a ∧ 0 < d
    · rw [battleLoop, dif_pos had]
      by_cases hs : rollDie (k + 1) + db ≥ rollDie k + ab
      · rw [if_pos hs]
        have h := ih (k + 2) (a - 1) d (by omega)
        show (battleLoop rollDie ab db (k + 2) (a - 1) d).1.length + 1 +
          (battleLoop rollDie ab db (k + 2) (a - 1) d).2.1 +
          (battleLoop rollDie ab db (k + 2) (a - 1) d).2.2 = a + d
        omega
      · rw [if_neg hs]
        have h := ih (k + 2) a (d - 1) (by omega)
        show (battleLoop rollDie ab db (k + 2) a (d - 1)).1.length + 1 +
          (battleLoop rollDie ab db (k + 2) a (d - 1)).2.1 +
          (battleLoop rollDie ab db (k + 2) a (d - 1)).2.2 = a + d
        omega
    · rw [battleLoop, dif_neg had]
      exact (show 0 + a + d = a + d by omega)

theorem battleLoop_totals (rollDie : ℕ → ℤ) (ab db : ℤ) :
    ∀ n k a d : ℕ, a + d ≤ n →
      roundsTotalsDecrease ((a : ℤ) + (d : ℤ)) (battleLoop rollDie ab db k a d).1 := by
  intro n
  induction n with
  | zero =>
    intro k a d hn
    rw [battleLoop, dif_neg (by omega)]
    exact trivial
  | succ n ih =>
    intro k a d hn
    by_cases had : 0 < a ∧ 0 < d
    · rw [battleLoop, dif_pos had]
      by_cases hs : rollDie (k + 1) + db ≥ rollDie k + ab
      · rw [if_pos hs]
        refine ⟨?_, ?_⟩
        · show ((a - 1 : ℕ) : ℤ) + (d : ℤ) + 1 = (a : ℤ) + (d : ℤ)
          omega
        · exact ih (k + 2) (a - 1) d (by omega)
      · rw [if_neg hs]
        refine ⟨?_, ?_⟩
        · show (a : ℤ) + ((d - 1 : ℕ) : ℤ) + 1 = (a : ℤ) + (d : ℤ)
          omega
        · exact ih (k + 2) a (d - 1) (by omega)
    · rw [battleLoop, dif_neg had]
      exact trivial

theorem battleLoop_not_pos (rollDie : ℕ → ℤ) (ab db : ℤ) (k a d : ℕ)
    (h : ¬(0 < a ∧ 0 < d)) : battleLoop rollDie ab db k a d = ([], a, d) := by
  rw [battleLoop, dif_neg h]

theorem clampTroops_zero : clampTroops 0 = 0 := by
  simp [clampTroops]

theorem clampTroops_idem (v : ℚ) :
    clampTroops ((clampTroops v : ℤ) : ℚ) = clampTroops v := by
  unfold clampTroops
  rw [Int.floor_intCast, ← max_assoc, max_self]

/-- C3: in every round of a battle produced by `resolveLegacyBattle`,
scores are die roll plus alliance member count, the attacker loses
exactly one troop iff the defender's score is at least the attacker's,
the defender loses exactly one troop otherwise, and exactly one troop
total is lost per round. -/
theorem resolveLegacyBattle_round_contract (input : LegacyBattleInput) (rollDie : ℕ → ℤ) :
    battleRoundsChain input.attackerAllianceMembers input.defenderAllianceMembers
      (clampTroops input.attackerTroops) (clampTroops input.defenderTroops)
      (resolveLegacyBattle input rollDie).rounds := by
  have h := battleLoop_chain_aux rollDie input.attackerAllianceMembers
    input.defenderAllianceMembers
    ((clampTroops input.attackerTroops).toNat + (clampTroops input.defenderTroops).toNat)
    0 (clampTroops input.attackerTroops).toNat (clampTroops input.defenderTroops).toNat le_rfl
  rw [clampTroops_toNat_cast, clampTroops_toNat_cast] at h
  exact h

/-- C4: the battle loops until one side is at 0 troops; the winner is the
side with troops remaining, the eliminated knights are exactly the losing
side's knights on the hex, the new owner is the winner, and a battle
started with 0 troops on both sides is won by the defender with no
rounds. -/
theorem resolveLegacyBattle_outcome (input : LegacyBattleInput) (rollDie : ℕ → ℤ) :
    ((resolveLegacyBattle input rollDie).attackerTroopsRemaining = 0 ∨
      (resolveLegacyBattle input rollDie).defenderTroopsRemaining = 0) ∧
    (0 < (resolveLegacyBattle input rollDie).attackerTroopsRemaining →
      (resolveLegacyBattle input rollDie).winnerNickname = input.attackerNickname ∧
      (resolveLegacyBattle input rollDie).loserNickname = input.defenderNickname ∧
      (resolveLegacyBattle input rollDie).eliminatedKnightNames = input.defenderKnightsOnHex ∧
      (resolveLegacyBattle input rollDie).newOwnerNickname = input.attackerNickname) ∧
    ((resolveLegacyBattle input rollDie).attackerTroopsRemaining = 0 →
      (resolveLegacyBattle input rollDie).winnerNickname = input.defenderNickname ∧
      (resolveLegacyBattle input rollDie).loserNickname = input.attackerNickname ∧
      (resolveLegacyBattle input rollDie).eliminatedKnightNames = input.attackerKnightsOnHex ∧
      (resolveLegacyBattle input rollDie).newOwnerNickname = input.defenderNickname) ∧
    (input.attackerTroops = 0 ∧ input.defenderTroops = 0 →
      (resolveLegacyBattle input rollDie).winnerNickname = input.defenderNickname ∧
      (resolveLegacyBattle input rollDie).rounds = []) := by
  simp only [resolveLegacyBattle, calculateLegacyBattleBonus]
  have hf := battleLoop_final rollDie input.attackerAllianceMembers input.defenderAllianceMembers
    ((clampTroops input.attackerTroops).toNat + (clampTroops input.defenderTroops).toNat)
    0 (clampTroops input.attackerTroops).toNat (clampTroops input.defenderTroops).toNat le_rfl
  split_ifs with hw
  · refine ⟨by omega, fun _ => ⟨rfl, rfl, rfl, rfl⟩, fun h0 => absurd h0 (by omega), ?_⟩
    rintro ⟨h1, h2⟩
    rw [h1, h2, clampTroops_zero] at hw
    rw [battleLoop_not_pos rollDie _ _ 0 _ _ (by omega)] at hw
    simp at hw
  · refine ⟨by omega, fun h0 => absurd h0 (by omega), fun _ => ⟨rfl, rfl, rfl, rfl⟩, ?_⟩
    rintro ⟨h1, h2⟩
    rw [h1, h2, clampTroops_zero]
    rw [battleLoop_not_pos rollDie _ _ 0 _ _ (by omega)]
    exact ⟨rfl, rfl⟩

/-- C4 witness at a concrete both-sides-zero battle input. -/
theorem resolveLegacyBattle_outcome_witness :
    (resolveLegacyBattle
        { attackerNickname := "Alice", defenderNickname := "Bob"
          attackerTroops := 0, defenderTroops := 0
          attackerAllianceMembers := 0, defenderAllianceMembers := 0
          attackerKnightsOnHex := [], defenderKnightsOnHex := [] } s3Rolls).winnerNickname =
      "Bob" ∧
    (resolveLegacyBattle
        { attackerNickname := "Alice", defenderNickname := "Bob"
          attackerTroops := 0, defenderTroops := 0
          attackerAllianceMembers := 0, defenderAllianceMembers := 0
          attackerKnightsOnHex := [], defenderKnightsOnHex := [] } s3Rolls).rounds = [] :=
  (resolveLegacyBattle_outcome _ s3Rolls).2.2.2 ⟨rfl, rfl⟩

/-- C9: the battle loop terminates with a full accounting of troops: the
number of recorded rounds plus the remaining troops on both sides equals
the initial (clamped) combined total, and the combined total decreases by
exactly one in each successive round. -/
theorem resolveLegacyBattle_termination_count (input : LegacyBattleInput) (rollDie : ℕ → ℤ) :
    ((resolveLegacyBattle input rollDie).rounds.length : ℤ) +
        (resolveLegacyBattle input rollDie).attackerTroopsRemaining +
        (resolveLegacyBattle input rollDie).defenderTroopsRemaining =
      clampTroops input.attackerTroops + clampTroops input.defenderTroops ∧
    roundsTotalsDecrease (clampTroops input.attackerTroops + clampTroops input.defenderTroops)
      (resolveLegacyBattle input rollDie).rounds := by
  have hca := clampTroops_toNat_cast input.attackerTroops
  have hcd := clampTroops_toNat_cast input.defenderTroops
  constructor
  · have h := battleLoop_length rollDie input.attackerAllianceMembers
      input.defenderAllianceMembers
      ((clampTroops input.attackerTroops).toNat + (clampTroops input.defenderTroops).toNat)
      0 (clampTroops input.attackerTroops).toNat (clampTroops input.defenderTroops).toNat le_rfl
    simp only [resolveLegacyBattle, calculateLegacyBattleBonus]
    omega
  · have h := battleLoop_totals rollDie input.attackerAllianceMembers
      input.defenderAllianceMembers
      ((clampTroops input.attackerTroops).toNat + (clampTroops input.defenderTroops).toNat)
      0 (clampTroops input.attackerTroops).toNat (clampTroops input.defenderTroops).toNat le_rfl
    rw [hca, hcd] at h
    simp only [resolveLegacyBattle, calculateLegacyBattleBonus]
    exact h

/-- C10: the battle resolver first clamps both initial counts with
`max(0, floor(count))`; the remaining counts are non-negative integers
and at least one of them is 0. -/
theorem resolveLegacyBattle_sanitization (input : LegacyBattleInput) (rollDie : ℕ → ℤ) :
    0 ≤ (resolveLegacyBattle input rollDie).attackerTroopsRemaining ∧
    0 ≤ (resolveLegacyBattle input rollDie).defenderTroopsRemaining ∧
    ((resolveLegacyBattle input rollDie).attackerTroopsRemaining = 0 ∨
      (resolveLegacyBattle input rollDie).defenderTroopsRemaining = 0) ∧
    resolveLegacyBattle input rollDie =
      resolveLegacyBattle
        { input with
            attackerTroops := ((clampTroops input.attackerTroops : ℤ) : ℚ)
            defenderTroops := ((clampTroops input.defenderTroops : ℤ) : ℚ) } rollDie := by
  refine ⟨Int.natCast_nonneg _, Int.natCast_nonneg _, ?_, ?_⟩
  · have hf := battleLoop_final rollDie input.attackerAllianceMembers
      input.defenderAllianceMembers
      ((clampTroops input.attackerTroops).toNat + (clampTroops input.defenderTroops).toNat)
      0 (clampTroops input.attackerTroops).toNat (clampTroops input.defenderTroops).toNat le_rfl
    simp only [resolveLegacyBattle, calculateLegacyBattleBonus]
    omega
  · simp only [resolveLegacyBattle, calculateLegacyBattleBonus]
    rw [clampTroops_idem, clampTroops_idem]

/-! ## Round executor lemmas -/

theorem issueLoop_orders_empty (rng : ℕ → ℚ) :
    ∀ fuel k players fp issued, issueLoop rng fuel k players = some (fp, issued) →
      ∀ p ∈ fp, p.orders = [] := by
  intro fuel
  induction fuel with
  | zero =>
    intro k players fp issued h
    simp [issueLoop] at h
  | succ fuel ih =>
    intro k players fp issued h
    rw [issueLoop] at h
    split at h
    · rename_i hall
      simp only [Option.some.injEq, Prod.mk.injEq] at h
      obtain ⟨rfl, rfl⟩ := h
      intro p hp
      have hemp := List.all_eq_true.mp hall p hp
      simpa using hemp
    · split at h
      · exact ih _ _ _ _ h
      · split at h
        · exact ih _ _ _ _ h
        · rename_i nick o players' hpop
          split at h
          · exact absurd h (by simp)
          · rename_i finalPlayers issued' heq
            simp only [Option.some.injEq, Prod.mk.injEq] at h
            obtain ⟨rfl, rfl⟩ := h
            exact ih _ _ _ _ heq

/-- C1: determinism of the round executor — two invocations on the same
(state, seed/RNG stream, fuel) produce identical results: same executed
flag, same round counter, same players, same events. -/
theorem runLegacyRoundExecutor_deterministic (fuel : ℕ) (input : RoundExecutorInput)
    (rng : ℕ → ℚ) (r₁ r₂ : RoundExecutorResult)
    (h₁ : runLegacyRoundExecutor fuel input rng = some r₁)
    (h₂ : runLegacyRoundExecutor fuel input rng = some r₂) :
    r₁.executed = r₂.executed ∧ r₁.round = r₂.round ∧
      r₁.players = r₂.players ∧ r₁.events = r₂.events := by
  rw [h₁] at h₂
  obtain rfl : r₁ = r₂ := Option.some.inj h₂
  exact ⟨rfl, rfl, rfl, rfl⟩

/-- C1 witness at the concrete S1 input. -/
theorem runLegacyRoundExecutor_deterministic_witness :
    ({ executed := false, round := 3, players := s1Input.players, events := [] }
        : RoundExecutorResult).executed =
      ({ executed := false, round := 3, players := s1Input.players, events := [] }
        : RoundExecutorResult).executed ∧
    ({ executed := false, round := 3, players := s1Input.players, events := [] }
        : RoundExecutorResult).round =
      ({ executed := false, round := 3, players := s1Input.players, events := [] }
        : RoundExecutorResult).round ∧
    ({ executed := false, round := 3, players := s1Input.players, events := [] }
        : RoundExecutorResult).players =
      ({ executed := false, round := 3, players := s1Input.players, events := [] }
        : RoundExecutorResult).players ∧
    ({ executed := false, round := 3, players := s1Input.players, events := [] }
        : RoundExecutorResult).events =
      ({ executed := false, round := 3, players := s1Input.players, events := [] }
        : RoundExecutorResult).events :=
  runLegacyRoundExecutor_deterministic 1 s1Input zeroRng _ _ (by rfl) (by rfl)

/-- C6: when the executor reports `executed = true` the round counter is
incremented by exactly one, every player ends not-ready with an empty
queue, and the final event is `RoundAdvanced` recording old and new
round; when `executed = false` the round counter is unchanged.  In both
cases the round counter does not decrease. -/
theorem runLegacyRoundExecutor_post (fuel : ℕ) (input : RoundExecutorInput) (rng : ℕ → ℚ)
    (r : RoundExecutorResult) (h : runLegacyRoundExecutor fuel input rng = some r) :
    (r.executed = true →
      r.round = input.round + 1 ∧
      (∀ p ∈ r.players, p.ready = false ∧ p.orders = []) ∧
      r.events.getLast? = some (RoundEvent.roundAdvanced input.round (input.round + 1))) ∧
    (r.executed = false → r.round = input.round) ∧
    input.round ≤ r.round := by
  unfold runLegacyRoundExecutor at h
  split at h
  · split at h
    · exact absurd h (by simp)
    · rename_i fp issued heq
      obtain rfl : _ = r := Option.some.inj h
      refine ⟨fun _ => ⟨rfl, ?_, ?_⟩, fun hex => absurd hex (by simp), ?_⟩
      · intro p hp
        obtain ⟨q, hq, rfl⟩ := List.mem_map.mp hp
        exact ⟨rfl, issueLoop_orders_empty rng fuel 0 input.players fp issued heq q hq⟩
      · simp
      · exact (by omega : input.round ≤ input.round + 1)
  · obtain rfl : _ = r := Option.some.inj h
    exact ⟨fun hex => absurd hex (by simp), fun _ => rfl, le_refl _⟩

/-- C6 witness at a concrete trivially-ready input. -/
theorem runLegacyRoundExecutor_post_witness :
    (5 : ℤ) ≤
      ({ executed := true, round := 6
         players := [{ nickname := "Alice", ready := false, orders := [] }]
         events := [RoundEvent.roundAdvanced 5 6] } : RoundExecutorResult).round :=
  (runLegacyRoundExecutor_post 1
      { round := 5, players := [{ nickname := "Alice", ready := true, orders := [] }] }
      zeroRng
      { executed := true, round := 6
        players := [{ nickname := "Alice", ready := false, orders := [] }]
        events := [RoundEvent.roundAdvanced 5 6] }
      (by rfl)).2.2

/-- C7: if some player is not ready, the executor does not execute — it
returns `executed = false`, the unchanged round counter, the unchanged
players (ready flags and order queues included), and no events. -/
theorem runLegacyRoundExecutor_gate (fuel : ℕ) (input : RoundExecutorInput) (rng : ℕ → ℚ)
    (h : ∃ p ∈ input.players, p.ready = false) :
    runLegacyRoundExecutor fuel input rng =
      some { executed := false, round := input.round, players := input.players, events := [] } := by
  unfold runLegacyRoundExecutor
  rw [if_neg]
  intro hall
  obtain ⟨p, hp, hpr⟩ := h
  have hcontra := List.all_eq_true.mp hall p hp
  rw [hpr] at hcontra
  exact Bool.false_ne_true hcontra

/-- C7 witness at the concrete S1 input (Bob not ready). -/
theorem runLegacyRoundExecutor_gate_witness :
    runLegacyRoundExecutor 1 s1Input zeroRng =
      some { executed := false, round := 3, players := s1Input.players, events := [] } :=
  runLegacyRoundExecutor_gate 1 s1Input zeroRng (by decide)

/-- C5: scenario S2 — round 7, Alice ready with orders 1 and 2, Bob ready
with order 1, RNG outputs 0.0, 0.8, 0.8, 0.1: the executor executes,
advances to round 8, issues the three orders attributed Alice, Bob,
Alice, appends `RoundAdvanced` from 7 to 8, resets both ready flags and
leaves both queues empty. -/
theorem runLegacyRoundExecutor_s2 :
    runLegacyRoundExecutor 10 s2Input s2Rng =
      some { executed := true, round := 8
             players := [{ nickname := "Alice", ready := false, orders := [] },
                         { nickname := "Bob", ready := false, orders := [] }]
             events := [RoundEvent.orderIssued 7 "Alice" fixtureAliceOrder1,
                        RoundEvent.orderIssued 7 "Bob" fixtureBobOrder1,
                        RoundEvent.orderIssued 7 "Alice" fixtureAliceOrder2,
                        RoundEvent.roundAdvanced 7 8] } := by
  with_unfolding_all decide

/-! ## Board topology -/

set_option maxRecDepth 8000 in
set_option maxHeartbeats 2000000 in
/-- C8: neighbor symmetry on the 110-hex board — if the neighbor list
computed for hex `a` contains hex `b`, then the neighbor list computed
for hex `b` contains hex `a`. -/
theorem getLegacyHexNeighbors_symmetric :
    ∀ a : ℕ, a < 110 → ∀ b : ℕ, b < 110 →
      some b ∈ getLegacyHexNeighbors a → some a ∈ getLegacyHexNeighbors b := by
  decide

/-- C8 witness at the concrete pair 23 / 24 (24 is listed by 23). -/
theorem getLegacyHexNeighbors_symmetric_witness :
    some 23 ∈ getLegacyHexNeighbors 24 :=
  getLegacyHexNeighbors_symmetric 23 (by decide) 24 (by decide) (by decide)

/-! ## Order validator lemmas -/

theorem validateLegacyOrder_eq_specTable (i : LegacyOrderInput) (s : OrderValidationState) :
    resultCode (validateLegacyOrder i s) = specValidatorFirstFailure i s := by
  unfold validateLegacyOrder specValidatorFirstFailure
  by_cases h1 : i.orderNumber < 1 ∨ LEGACY_MAX_ORDERS_PER_PLAYER < i.orderNumber
  · have h1a : ¬(1 ≤ i.orderNumber ∧ i.orderNumber ≤ 3) := by
      simp only [LEGACY_MAX_ORDERS_PER_PLAYER] at h1
      omega
    rw [if_pos h1, if_pos h1a]
    rfl
  · have h1a : ¬¬(1 ≤ i.orderNumber ∧ i.orderNumber ≤ 3) := by
      simp only [LEGACY_MAX_ORDERS_PER_PLAYER] at h1
      omega
    rw [if_neg h1, if_neg h1a]
    split
    · rfl
    · split
      · rfl
      · rename_i knight hk
        by_cases ho : knight.ownerNickname ≠ i.ownerNickname
        · rw [if_pos ho, if_pos ho]
          rfl
        · rw [if_neg ho, if_neg ho]
          by_cases ha : knight.alive = some false
          · rw [if_pos ha, if_pos ha]
            rfl
          · rw [if_neg ha, if_neg ha]
            split
            · rename_i fromHexState toHexState
              by_cases hm : projectedPositionForOrder knight i.orderNumber ≠ i.fromHex
              · rw [if_pos hm, if_pos hm]
                rfl
              · rw [if_neg hm, if_neg hm]
                cases hty : i.type with
                | fortify =>
                  simp
                  split_ifs <;> rfl
                | promote =>
                  simp
                  split_ifs <;> rfl
                | move =>
                  simp
                  split_ifs <;> rfl
                | attack =>
                  simp
                  split_ifs <;> rfl
            · rfl

theorem validateLegacyOrder_badNumber (i : LegacyOrderInput) (s : OrderValidationState)
    (h : i.orderNumber < 1 ∨ 3 < i.orderNumber) :
    resultCode (validateLegacyOrder i s) = some .INVALID_ORDER_NUMBER := by
  rw [validateLegacyOrder_eq_specTable]
  unfold specValidatorFirstFailure
  rw [if_pos (by omega)]

theorem validateLegacyOrder_notNeighbor_priority (i : LegacyOrderInput)
    (s : OrderValidationState) (fh th : ValidationHexState)
    (hpass : passesChecks1to6 i s fh th) (hty : i.type = .move ∨ i.type = .attack)
    (hnb : isNeighbor fh i.toHex = false) :
    resultCode (validateLegacyOrder i s) = some .NOT_NEIGHBOR := by
  obtain ⟨⟨hn1, hn3⟩, player, knight, hp, hk, ho, ha, hf, ht, hm⟩ := hpass
  rw [validateLegacyOrder_eq_specTable]
  rcases hty with hty | hty <;>
    simp [specValidatorFirstFailure, hp, hk, ho, ha, hf, ht, hm, hnb, hty, hn1, hn3]

theorem validateLegacyOrder_troopCount_priority (i : LegacyOrderInput)
    (s : OrderValidationState) (fh th : ValidationHexState)
    (hpass : passesChecks1to6 i s fh th) (hty : i.type = .move ∨ i.type = .attack)
    (hnb : isNeighbor fh i.toHex = true) (htr : i.troops ≤ 0) :
    resultCode (validateLegacyOrder i s) = some .INVALID_TROOP_COUNT := by
  obtain ⟨⟨hn1, hn3⟩, player, knight, hp, hk, ho, ha, hf, ht, hm⟩ := hpass
  rw [validateLegacyOrder_eq_specTable]
  rcases hty with hty | hty <;>
    simp [specValidatorFirstFailure, hp, hk, ho, ha, hf, ht, hm, hnb, hty, hn1, hn3, htr]

theorem validateLegacyOrder_insufficient_priority (i : LegacyOrderInput)
    (s : OrderValidationState) (fh th : ValidationHexState)
    (hpass : passesChecks1to6 i s fh th) (hty : i.type = .move ∨ i.type = .attack)
    (hnb : isNeighbor fh i.toHex = true) (htr : 0 < i.troops)
    (hav : troopsOnHex fh i.ownerNickname < i.troops) :
    resultCode (validateLegacyOrder i s) = some .INSUFFICIENT_TROOPS := by
  obtain ⟨⟨hn1, hn3⟩, player, knight, hp, hk, ho, ha, hf, ht, hm⟩ := hpass
  have htr' : ¬ i.troops ≤ 0 := not_le.mpr htr
  rw [validateLegacyOrder_eq_specTable]
  rcases hty with hty | hty <;>
    simp [specValidatorFirstFailure, hp, hk, ho, ha, hf, ht, hm, hnb, hty, hn1, hn3, htr', hav]

theorem validateLegacyOrder_attackTarget_priority (i : LegacyOrderInput)
    (s : OrderValidationState) (fh th : ValidationHexState)
    (hpass : passesChecks1to6 i s fh th) (hty : i.type = .attack)
    (hnb : isNeighbor fh i.toHex = true) (htr : 0 < i.troops)
    (hav : ¬ troopsOnHex fh i.ownerNickname < i.troops)
    (howner : th.ownerNickname = none ∨ th.ownerNickname = some i.ownerNickname) :
    resultCode (validateLegacyOrder i s) = some .ATTACK_TARGET_NOT_ENEMY := by
  obtain ⟨⟨hn1, hn3⟩, player, knight, hp, hk, ho, ha, hf, ht, hm⟩ := hpass
  have htr' : ¬ i.troops ≤ 0 := not_le.mpr htr
  rw [validateLegacyOrder_eq_specTable]
  rcases howner with howner | howner <;>
    simp [specValidatorFirstFailure, hp, hk, ho, ha, hf, ht, hm, hnb, hty, hn1, hn3, htr',
      hav, howner]

theorem validateLegacyOrder_ok_iff (i : LegacyOrderInput) (s : OrderValidationState) :
    (∃ o, validateLegacyOrder i s = .ok o) ↔ specValidatorFirstFailure i s = none := by
  constructor
  · rintro ⟨o, ho⟩
    rw [← validateLegacyOrder_eq_specTable, ho]
    rfl
  · intro hnone
    have heq := validateLegacyOrder_eq_specTable i s
    rw [hnone] at heq
    cases hv : validateLegacyOrder i s with
    | ok o => exact ⟨o, rfl⟩
    | fail c m =>
      rw [hv] at heq
      exact absurd heq (by simp [resultCode])

/-- C2: the validator implements the spec's twelve-check table in the
listed order with first failure winning: the reported code always equals
the first failing check of the table, an out-of-range order number wins
over everything else, Ok is returned exactly when every applicable check
passes, and for move/attack orders NOT_NEIGHBOR is reported before
INVALID_TROOP_COUNT, before INSUFFICIENT_TROOPS, before
ATTACK_TARGET_NOT_ENEMY. -/
theorem validateLegacyOrder_spec_table_contract :
    (∀ i s, resultCode (validateLegacyOrder i s) = specValidatorFirstFailure i s) ∧
    (∀ i s, i.orderNumber < 1 ∨ 3 < i.orderNumber →
      resultCode (validateLegacyOrder i s) = some .INVALID_ORDER_NUMBER) ∧
    (∀ i s fh th, passesChecks1to6 i s fh th → i.type = .move ∨ i.type = .attack →
      isNeighbor fh i.toHex = false →
      resultCode (validateLegacyOrder i s) = some .NOT_NEIGHBOR) ∧
    (∀ i s fh th, passesChecks1to6 i s fh th → i.type = .move ∨ i.type = .attack →
      isNeighbor fh i.toHex = true → i.troops ≤ 0 →
      resultCode (validateLegacyOrder i s) = some .INVALID_TROOP_COUNT) ∧
    (∀ i s fh th, passesChecks1to6 i s fh th → i.type = .move ∨ i.type = .attack →
      isNeighbor fh i.toHex = true → 0 < i.troops →
      troopsOnHex fh i.ownerNickname < i.troops →
      resultCode (validateLegacyOrder i s) = some .INSUFFICIENT_TROOPS) ∧
    (∀ i s fh th, passesChecks1to6 i s fh th → i.type = .attack →
      isNeighbor fh i.toHex = true → 0 < i.troops →
      ¬ troopsOnHex fh i.ownerNickname < i.troops →
      (th.ownerNickname = none ∨ th.ownerNickname = some i.ownerNickname) →
      resultCode (validateLegacyOrder i s) = some .ATTACK_TARGET_NOT_ENEMY) ∧
    (∀ i s, (∃ o, validateLegacyOrder i s = .ok o) ↔ specValidatorFirstFailure i s = none) :=
  ⟨validateLegacyOrder_eq_specTable, validateLegacyOrder_badNumber,
    validateLegacyOrder_notNeighbor_priority, validateLegacyOrder_troopCount_priority,
    validateLegacyOrder_insufficient_priority, validateLegacyOrder_attackTarget_priority,
    validateLegacyOrder_ok_iff⟩

/-- C2 witness at the concrete order-number-4 order of the test suite. -/
theorem validateLegacyOrder_spec_table_contract_witness :
    resultCode (validateLegacyOrder fixtureBadNumberOrder fixtureValidationState) =
      some OrderValidationErrorCode.INVALID_ORDER_NUMBER :=
  validateLegacyOrder_spec_table_contract.2.1 fixtureBadNumberOrder fixtureValidationState
    (Or.inr (by decide))
